import Mathlib

/-!
# Verification of the rental-as-PPE metering actor (`src/main.ts`)

Shallow embedding of the metering/billing coordination logic of the actor:

* the bookkeeping ledger records (`FirstMonthRunRecord` / `ItemsPushedRecord`),
* the rental-charge coordination (`wasAlreadyRunThisMonth`, marker append,
  the deferred re-validation in the `setTimeout` callback),
* the quota tracker (`sumBookkeepingPushedResultsCount`, the `setInterval`
  refresh that overwrites `bookkeepingPushedResultsCount`),
* the per-item `requestHandler` (push output, optimistic increment,
  free-vs-paid branch, `result` charge, `crawler.teardown` on
  `eventChargeLimitReached`),
* input parsing with destructuring defaults.

JavaScript numbers are modelled as `Int` (all arithmetic in the program stays
in the exactly-representable integer range); fallible store calls are modelled
with `Except`; the mutable module-level state is threaded explicitly.
-/

namespace RentalPPE

/-- The ledger record union (`BookkeepingRecord` in the source):
`{ type: 'first-month-run', runId, timestamp }` or
`{ type: 'items-pushed', count, runId, timestamp }`. -/
inductive BookkeepingRecord where
  | firstMonthRun (runId : String) (timestamp : String)
  | itemsPushed (count : Int) (runId : String) (timestamp : String)
  deriving DecidableEq

/-- The two charge event names used by the source (`type ChargeEvent`). -/
inductive ChargeEvent where
  | rental
  | result
  deriving DecidableEq

/-- One `Actor.charge({ eventName, count })` invocation. -/
structure ChargeCall where
  eventName : ChargeEvent
  count : Int
  deriving DecidableEq

/-- `item.type === 'first-month-run'` -/
def BookkeepingRecord.isFirstMonthRun : BookkeepingRecord → Bool
  | .firstMonthRun _ _ => true
  | .itemsPushed _ _ _ => false

/-- `item.type === 'items-pushed'` -/
def BookkeepingRecord.isItemsPushed : BookkeepingRecord → Bool
  | .firstMonthRun _ _ => false
  | .itemsPushed _ _ _ => true

/-- The `runId` field of a record (both variants carry one). -/
def BookkeepingRecord.runId : BookkeepingRecord → String
  | .firstMonthRun rid _ => rid
  | .itemsPushed _ rid _ => rid

/-- The `timestamp` field of a record (both variants carry one). -/
def BookkeepingRecord.timestamp : BookkeepingRecord → String
  | .firstMonthRun _ ts => ts
  | .itemsPushed _ _ ts => ts

/-- The `count` field: `1` per free item record; `itemsPushed` carries it.
A `firstMonthRun` record has no `count` field (never summed, see the
`filter` in `sumBookkeepingPushedResultsCount`). -/
def BookkeepingRecord.count : BookkeepingRecord → Int
  | .firstMonthRun _ _ => 0
  | .itemsPushed c _ _ => c

/-- Line 59: `bookkeepingItems.some((item) => item.type === 'first-month-run')`,
parameterised by the listing this worker obtained at startup. -/
def wasAlreadyRunThisMonth (bookkeepingItems : List BookkeepingRecord) : Bool :=
  bookkeepingItems.any (fun item => item.isFirstMonthRun)

/-- Lines 74-75 (inside the `setTimeout` callback):
`bookkeepingItems.find((item) => item.type === 'first-month-run')?.runId === Actor.getEnv().actorRunId`.
`Array.prototype.find` returns the first match in listing order;
`undefined === actorRunId` is `false` when no marker is present. -/
def isThisReallyFirstRun (actorRunId : String) (bookkeepingItems : List BookkeepingRecord) : Bool :=
  match bookkeepingItems.find? (fun item => item.isFirstMonthRun) with
  | some item => item.runId == actorRunId
  | none => false

/-- The charge calls issued by the re-validation callback (lines 71-84):
exactly one `Actor.charge({ eventName: 'rental', count: 1 })` when
`isThisReallyFirstRun`, none otherwise. -/
def rentalRechargeCalls (actorRunId : String) (bookkeepingItems : List BookkeepingRecord) :
    List ChargeCall :=
  if isThisReallyFirstRun actorRunId bookkeepingItems then
    [{ eventName := ChargeEvent.rental, count := 1 }]
  else
    []

/-- The whole `setTimeout` callback body (lines 71-84) with the fallible
`getBookkeepingItems()` listing made explicit: `await` of a rejected promise
aborts the callback (the rejection propagates; there is no `try`/`catch`),
so a failed re-listing yields `Except.error` and no charge calls. -/
def rentalRevalidation (actorRunId : String)
    (listing : Except String (List BookkeepingRecord)) :
    Except String (List ChargeCall) :=
  match listing with
  | .error e => .error e
  | .ok items => .ok (rentalRechargeCalls actorRunId items)

/-! ## Quota tracker (lines 99-116) -/

/-- Lines 99-100:
`items.filter((item) => item.type === 'items-pushed').reduce((acc, item) => acc + item.count, 0)`. -/
def sumBookkeepingPushedResultsCount (items : List BookkeepingRecord) : Int :=
  (items.filter (fun item => item.isItemsPushed)).foldl
    (fun acc item => acc + item.count) 0

/-- The spec's "sum of `count` over all UsageRecord entries in the listing",
written as a direct recursion over the listing, to be compared with the
implementation's filter-and-reduce (`sumBookkeepingPushedResultsCount`). -/
def usageCountSumSpec : List BookkeepingRecord → Int
  | [] => 0
  | BookkeepingRecord.itemsPushed c _ _ :: rest => c + usageCountSumSpec rest
  | BookkeepingRecord.firstMonthRun _ _ :: rest => usageCountSumSpec rest

/-! ## Input parsing (lines 29-38) -/

/-- The raw input object (`interface Input`): both fields may be absent
from the JSON object the actor receives, in which case the destructuring
defaults on line 38 apply. -/
structure RawInput where
  requestsCount : Option Int
  prepaidRentalResultsCount : Option Int
  deriving DecidableEq

/-- The configuration after the destructuring on line 38. -/
structure Config where
  requestsCount : Int
  prepaidRentalResultsCount : Int
  deriving DecidableEq

/-- Line 38:
`const { requestsCount = 50, prepaidRentalResultsCount = 100 } = (await Actor.getInput<Input>())!;`.
A `null` input makes the non-null assertion dereference throw (startup
failure); otherwise the destructuring defaults `50` and `100` fill absent
fields, with no further validation of any kind. -/
def parseInput : Option RawInput → Except String Config
  | none => .error "TypeError: Cannot destructure from null input"
  | some raw =>
      .ok { requestsCount := raw.requestsCount.getD 50
            prepaidRentalResultsCount := raw.prepaidRentalResultsCount.getD 100 }

/-! ## Per-item request handler (lines 128-158) and the crawl driver -/

/-- The decision taken by the free-vs-paid branch on line 136. -/
inductive Decision where
  | free
  | paid
  deriving DecidableEq

/-- Observable side effects of one `requestHandler` invocation, in program
order: `Actor.pushData` of the item, a bookkeeping append (free branch) or
an `Actor.charge` for `result` (paid branch, with the service's
`eventChargeLimitReached` response recorded), and `crawler.teardown()`. -/
inductive Effect where
  | pushOutput (url : String)
  | appendUsage (record : BookkeepingRecord)
  | charge (eventName : ChargeEvent) (count : Int) (limitReached : Bool)
  | teardown
  deriving DecidableEq

/-- The mutable module-level state a handler invocation touches:
`bookkeepingPushedResultsCount` (the cached counter), the period partition
contents (the records this partition holds; with a single worker these are
exactly the records this run appended), the number of `result` charges
issued so far (to address the external service's per-call response), and
whether `crawler.teardown()` has been requested. -/
structure RunState where
  counter : Int
  ledger : List BookkeepingRecord
  paidCharges : Nat
  stopped : Bool
  deriving DecidableEq

/-- The initial state of a run on an empty period partition. -/
def initialState : RunState :=
  { counter := 0, ledger := [], paidCharges := 0, stopped := false }

/-- Lines 128-158, one `requestHandler` invocation.
`limitResponse n` is the external charging service's
`eventChargeLimitReached` answer to the n-th `result` charge of this run.
Returns the new state, the branch decision, and the effect list in program
order: `await Actor.pushData({ url })` first, then
`bookkeepingPushedResultsCount++`, then the `<` comparison against
`prepaidRentalResultsCount`; the free branch appends one
`items-pushed, count: 1` record, the paid branch charges `result` and
calls `crawler.teardown()` exactly when the response reports the limit. -/
def requestHandler (prepaidRentalResultsCount : Int) (actorRunId timestamp url : String)
    (limitResponse : Nat → Bool) (s : RunState) :
    RunState × Decision × List Effect :=
  let c := s.counter + 1
  if c < prepaidRentalResultsCount then
    let record := BookkeepingRecord.itemsPushed 1 actorRunId timestamp
    ({ s with counter := c, ledger := s.ledger ++ [record] },
     Decision.free,
     [Effect.pushOutput url, Effect.appendUsage record])
  else
    let resp := limitResponse (s.paidCharges + 1)
    ({ s with counter := c, paidCharges := s.paidCharges + 1,
              stopped := s.stopped || resp },
     Decision.paid,
     [Effect.pushOutput url, Effect.charge ChargeEvent.result 1 resp]
       ++ (if resp then [Effect.teardown] else []))

/-- Lines 110-116, the body of one `setInterval` tick:
`bookkeepingPushedResultsCount = await getPushedFreeResultsCount()`, i.e.
the counter is unconditionally overwritten with
`sumBookkeepingPushedResultsCount` of a fresh listing; nothing else of the
state is touched. -/
def refreshTickUpdate (listing : List BookkeepingRecord) (s : RunState) : RunState :=
  { s with counter := sumBookkeepingPushedResultsCount listing }

/-- Events a single worker's run interleaves: item arrivals handled by
`requestHandler` and ticks of the 10-second `setInterval` refresh
(lines 110-116), which re-lists the partition and overwrites the counter.
With a single worker and no concurrent writers the re-listing returns
exactly the worker's own partition contents, `s.ledger`. -/
inductive WorkerEvent where
  | item (url timestamp : String)
  | refreshTick
  deriving DecidableEq

/-- A single-worker run: process the events in order, collecting the
free/paid decisions. An item arriving after `crawler.teardown()` was
requested is not handled (the crawler stops issuing `requestHandler`
calls); a refresh tick overwrites the counter with the re-listed sum. -/
def runWorker (prepaidRentalResultsCount : Int) (actorRunId : String)
    (limitResponse : Nat → Bool) :
    List WorkerEvent → RunState → RunState × List Decision
  | [], s => (s, [])
  | WorkerEvent.refreshTick :: rest, s =>
      runWorker prepaidRentalResultsCount actorRunId limitResponse rest
        (refreshTickUpdate s.ledger s)
  | WorkerEvent.item url ts :: rest, s =>
      if s.stopped then (s, [])
      else
        let out := requestHandler prepaidRentalResultsCount actorRunId ts url limitResponse s
        let tail := runWorker prepaidRentalResultsCount actorRunId limitResponse rest out.1
        (tail.1, out.2.1 :: tail.2)

/-! ## Fallible store calls (lines 52-54, 61-84, 141-146)

`pushBookkeepingData` and `getBookkeepingItems` are plain `await`s on the
dataset client with no `try`/`catch` anywhere in the program, so a rejected
promise propagates out of the enclosing `async` function. -/

/-- Lines 61-67 of the startup sequence with the fallible marker append made
explicit. When `wasAlreadyRunThisMonth` holds, the marker is not appended and
no re-validation timer is scheduled (`ok false`). Otherwise the worker
`await`s `pushBookkeepingData({type: 'first-month-run', ...})` at top level:
a rejected append propagates and aborts startup (`error`), since no handler
catches it; on success the re-validation timer is scheduled (`ok true`). -/
def markerAppendStartup (startupItems : List BookkeepingRecord)
    (appendResult : Except String Unit) : Except String Bool :=
  if wasAlreadyRunThisMonth startupItems then .ok false
  else
    match appendResult with
    | .error e => .error e
    | .ok _ => .ok true

/-- Lines 128-158 with the free-branch `await pushBookkeepingData(...)`
(lines 141-146) made fallible. The module-level counter was already
incremented before the `await`, so it keeps counting the item; a rejected
append then propagates out of `requestHandler` (failing the request in the
crawler) with no record appended and no charge issued. The paid branch does
not touch `pushBookkeepingData`. -/
def requestHandlerFallible (prepaidRentalResultsCount : Int)
    (actorRunId timestamp url : String) (pushResult : Except String Unit)
    (limitResponse : Nat → Bool) (s : RunState) :
    RunState × Except String (Decision × List Effect) :=
  let c := s.counter + 1
  if c < prepaidRentalResultsCount then
    match pushResult with
    | .error e => ({ s with counter := c }, .error e)
    | .ok _ =>
        let record := BookkeepingRecord.itemsPushed 1 actorRunId timestamp
        ({ s with counter := c, ledger := s.ledger ++ [record] },
         .ok (Decision.free, [Effect.pushOutput url, Effect.appendUsage record]))
  else
    let resp := limitResponse (s.paidCharges + 1)
    ({ s with counter := c, paidCharges := s.paidCharges + 1,
              stopped := s.stopped || resp },
     .ok (Decision.paid,
       [Effect.pushOutput url, Effect.charge ChargeEvent.result 1 resp]
         ++ (if resp then [Effect.teardown] else [])))

/-! ## The spec's authoritative-marker rule and the multi-worker race model -/

/-- Strict lexicographic order on character lists: how ISO-8601 timestamp
strings compare chronologically. -/
def charListLt : List Char → List Char → Bool
  | _, [] => false
  | [], _ :: _ => true
  | a :: as, b :: bs =>
      if a < b then true
      else if b < a then false
      else charListLt as bs

/-- `a` is chronologically strictly before `b`, for ISO-8601 timestamps. -/
def timestampLt (a b : String) : Bool :=
  charListLt a.data b.data

/-- The authoritative-marker selection rule as the spec words it: the
PeriodMarker with the lowest `timestamp`, ties broken by first-seen order in
the listing. Stated here only to be compared with the implementation's
selection (`List.find?` in `isThisReallyFirstRun`), which never consults
timestamps. -/
def authoritativeMarkerBySpec (items : List BookkeepingRecord) :
    Option BookkeepingRecord :=
  items.foldl
    (fun best r =>
      if r.isFirstMonthRun then
        match best with
        | none => some r
        | some b => if timestampLt r.timestamp b.timestamp then some r else some b
      else best)
    none

/-- One worker of a concurrent start for the same account and period:
its run id, the timestamp its marker carries, the listing it obtained at
startup (line 56) and the listing its re-validation obtained after the
settle delay (line 72). The two listings are this worker's *views* of the
shared partition; the store gives no cross-reader ordering or freshness
guarantee beyond eventual visibility. -/
structure WorkerView where
  runId : String
  markerTimestamp : String
  startupView : List BookkeepingRecord
  relistView : List BookkeepingRecord
  deriving DecidableEq

/-- The marker this worker would append (lines 63-67). -/
def WorkerView.ownMarker (w : WorkerView) : BookkeepingRecord :=
  BookkeepingRecord.firstMonthRun w.runId w.markerTimestamp

/-- Line 61: the worker appends its marker exactly when its startup listing
shows no `first-month-run` record. -/
def WorkerView.appendsMarker (w : WorkerView) : Bool :=
  !(wasAlreadyRunThisMonth w.startupView)

/-- Lines 61-84: the worker issues the rental charge exactly when it appended
a marker and its re-validation listing still names it the first
`first-month-run` record. -/
def WorkerView.chargesRental (w : WorkerView) : Bool :=
  w.appendsMarker && isThisReallyFirstRun w.runId w.relistView

/-- Pairwise-distinct run ids (every worker process has its own
`actorRunId`). -/
def distinctRunIds : List WorkerView → Bool
  | [] => true
  | w :: rest => rest.all (fun v => v.runId != w.runId) && distinctRunIds rest

/-- A peer-marker interleaving consistent with the protocol and the store's
(lack of) guarantees, for a fresh period partition: run ids are distinct,
every record any worker observes is the marker of some worker that actually
appended one, and a worker's own appended marker is visible in its own
re-validation listing (the settle delay covers its own write). Nothing
forces a peer's marker to have become visible to anyone else. -/
def validExecution (ws : List WorkerView) : Bool :=
  distinctRunIds ws &&
  ws.all (fun w =>
    w.startupView.all (fun r => ws.any (fun v => v.appendsMarker && r == v.ownMarker)) &&
    w.relistView.all (fun r => ws.any (fun v => v.appendsMarker && r == v.ownMarker)) &&
    (!w.appendsMarker || w.relistView.contains w.ownMarker))

/-- All workers' re-validation listings present the same first
`first-month-run` record: what a store with one consistent global listing
order (and settled visibility) would give every reader. -/
def agreeOnFirstMarker (ws : List WorkerView) : Bool :=
  ws.all (fun w => ws.all (fun v =>
    w.relistView.find? (fun r => r.isFirstMonthRun)
      == v.relistView.find? (fun r => r.isFirstMonthRun)))

/-! ## Concrete inputs used by the claims -/

/-- A re-validation listing holding two markers where the *later*-timestamped
one (worker B's) happens to be listed first: the store does not guarantee
listing order, so this is a legitimate single-listing view. -/
def twoMarkerListing : List BookkeepingRecord :=
  [BookkeepingRecord.firstMonthRun "run-B" "2025-09-01T00:00:07.000Z",
   BookkeepingRecord.firstMonthRun "run-A" "2025-09-01T00:00:01.000Z"]

/-- Worker A of the double-charge race: started on an empty partition, and
after its settle delay its re-listing still shows only its own marker
(worker B's append has not become visible to A). -/
def raceWorkerA : WorkerView :=
  { runId := "run-A", markerTimestamp := "2025-09-01T00:00:01.000Z",
    startupView := [],
    relistView := [BookkeepingRecord.firstMonthRun "run-A" "2025-09-01T00:00:01.000Z"] }

/-- Worker B of the double-charge race: also started on an empty partition
(worker A's append not yet visible), and its re-listing shows only its own
marker. -/
def raceWorkerB : WorkerView :=
  { runId := "run-B", markerTimestamp := "2025-09-01T00:00:02.000Z",
    startupView := [],
    relistView := [BookkeepingRecord.firstMonthRun "run-B" "2025-09-01T00:00:02.000Z"] }

/-- The spec scenario of C1: one worker, threshold 100, 150 items produced
sequentially on an empty partition, with a refresh tick of the 10-second
interval interleaved after every tenth item. -/
def scenarioTrace : List WorkerEvent :=
  (List.replicate 15
    ((List.replicate 10 (WorkerEvent.item "https://example.com/page" ""))
      ++ [WorkerEvent.refreshTick])).flatten

/-- The run of the C1 scenario. -/
def scenarioRun : RunState × List Decision :=
  runWorker 100 "run-A" (fun _ => false) scenarioTrace initialState

/-! ## Helper lemmas -/

/-- `isThisReallyFirstRun` succeeds exactly when the first `first-month-run`
record of the listing carries this worker's run id. -/
theorem isThisReallyFirstRun_iff (rid : String) (items : List BookkeepingRecord) :
    isThisReallyFirstRun rid items = true ↔
      ∃ m, items.find? (fun r => r.isFirstMonthRun) = some m ∧ m.runId = rid := by
  unfold isThisReallyFirstRun
  cases h : items.find? (fun r => r.isFirstMonthRun) with
  | none => simp
  | some m => simp [beq_iff_eq]

/-- The filter-and-reduce of the implementation, started from any
accumulator, computes the accumulator plus the direct recursive sum of
usage counts. -/
theorem filter_foldl_count (items : List BookkeepingRecord) :
    ∀ acc : Int,
      ((items.filter (fun item => item.isItemsPushed)).foldl
        (fun a item => a + item.count) acc) = acc + usageCountSumSpec items := by
  induction items with
  | nil => intro acc; simp [usageCountSumSpec]
  | cons r rest ih =>
      intro acc
      cases r with
      | firstMonthRun rid ts =>
          simpa [BookkeepingRecord.isItemsPushed, usageCountSumSpec] using ih acc
      | itemsPushed c rid ts =>
          show (rest.filter (fun item => item.isItemsPushed)).foldl
              (fun a item => a + item.count) (acc + c)
            = acc + (c + usageCountSumSpec rest)
          rw [ih (acc + c)]
          ring

/-- The implementation's `sumBookkeepingPushedResultsCount` equals the
spec's sum of `count` over all usage records. -/
theorem sumBookkeeping_eq_spec (items : List BookkeepingRecord) :
    sumBookkeepingPushedResultsCount items = usageCountSumSpec items := by
  simpa [sumBookkeepingPushedResultsCount] using filter_foldl_count items 0

/-! ## Claims -/

/-- C7: after each periodic refresh the cached counter equals exactly the
sum of `count` over all usage records in the listing that refresh obtained —
the assignment unconditionally overwrites the counter, discarding any local
optimistic increments made since that listing, and touches nothing else of
the worker's state. -/
theorem refresh_overwrites_counter_with_usage_sum :
    ∀ (listing : List BookkeepingRecord) (s : RunState),
      (refreshTickUpdate listing s).counter = usageCountSumSpec listing ∧
      (refreshTickUpdate listing s).ledger = s.ledger ∧
      (refreshTickUpdate listing s).paidCharges = s.paidCharges ∧
      (refreshTickUpdate listing s).stopped = s.stopped := by
  intro listing s
  exact ⟨sumBookkeeping_eq_spec listing, rfl, rfl, rfl⟩

/-- C9: an input object omitting `requestsCount` defaults it to `50`, one
omitting `prepaidRentalResultsCount` defaults it to `100`, and an absent
(null) input object makes startup fail at the non-null assertion. -/
theorem input_defaults_and_null_input_failure :
    (∀ r : Int, parseInput (some { requestsCount := some r, prepaidRentalResultsCount := none })
        = Except.ok { requestsCount := r, prepaidRentalResultsCount := 100 }) ∧
    (∀ q : Int, parseInput (some { requestsCount := none, prepaidRentalResultsCount := some q })
        = Except.ok { requestsCount := 50, prepaidRentalResultsCount := q }) ∧
    parseInput (some { requestsCount := none, prepaidRentalResultsCount := none })
      = Except.ok { requestsCount := 50, prepaidRentalResultsCount := 100 } ∧
    parseInput none = Except.error "TypeError: Cannot destructure from null input" :=
  ⟨fun _ => rfl, fun _ => rfl, rfl, rfl⟩

/-- C6 counterexample: a configuration with a negative free-quota threshold
is *not* rejected — parsing accepts it unchanged and the run proceeds (the
first item is then simply decided Paid). -/
theorem negative_threshold_accepted :
    parseInput (some { requestsCount := some 10, prepaidRentalResultsCount := some (-5) })
      = Except.ok { requestsCount := 10, prepaidRentalResultsCount := -5 } ∧
    (requestHandler (-5) "run-A" "2025-09-01T00:00:01.000Z" "https://example.com/page-1"
        (fun _ => false) initialState).2.1 = Decision.paid := by
  exact ⟨rfl, by decide⟩

/-- C6 amended: the configuration is not validated at all — every present
input object is accepted, a non-positive threshold merely makes every item
Paid (given the counter is non-negative), and the settle delay is a
hard-coded constant rather than a configurable value. -/
theorem no_configuration_validation :
    ∀ (raw : RawInput) (rid ts url : String) (lim : Nat → Bool) (s : RunState) (T : Int),
      (parseInput (some raw)).isOk = true ∧
      (T ≤ 0 → 0 ≤ s.counter → (requestHandler T rid ts url lim s).2.1 = Decision.paid) := by
  intro raw rid ts url lim s T
  refine ⟨rfl, fun hT hc => ?_⟩
  have h : ¬ (s.counter + 1 < T) := by omega
  simp [requestHandler, h]

/-- C5 counterexample: a failed re-listing in the re-validation callback, a
failed marker append at startup and a failed usage-record append in the
request handler are all left uncaught — each propagates the store's error
instead of being handled locally (no outcome `Except.ok` is produced, which
the claim's "log and transition to Skipped" would require). -/
theorem store_failure_propagates_uncaught :
    rentalRevalidation "run-A" (Except.error "ECONNREFUSED")
      = Except.error "ECONNREFUSED" ∧
    (∀ calls : List ChargeCall,
      rentalRevalidation "run-A" (Except.error "ECONNREFUSED") ≠ Except.ok calls) ∧
    markerAppendStartup [] (Except.error "ECONNREFUSED")
      = Except.error "ECONNREFUSED" ∧
    (requestHandlerFallible 100 "run-A" "2025-09-01T00:00:01.000Z"
        "https://example.com/page-1" (Except.error "ECONNREFUSED")
        (fun _ => false) initialState).2 = Except.error "ECONNREFUSED" := by
  refine ⟨rfl, fun calls h => Except.noConfusion h, rfl, rfl⟩

/-- C5 amended: ledger-store failures are not caught anywhere — a failed
re-listing aborts the re-validation with the store's error, a failed marker
append aborts startup, and a failed usage append aborts the item's handler
(the already-incremented local counter still counts the item) — but no
charge is ever issued on any of these failure paths. -/
theorem store_failures_abort_without_charge :
    ∀ (rid e ts url : String) (startupItems : List BookkeepingRecord)
      (T : Int) (lim : Nat → Bool) (s : RunState),
      rentalRevalidation rid (Except.error e) = Except.error e ∧
      (wasAlreadyRunThisMonth startupItems = false →
        markerAppendStartup startupItems (Except.error e) = Except.error e) ∧
      (s.counter + 1 < T →
        requestHandlerFallible T rid ts url (Except.error e) lim s
          = ({ s with counter := s.counter + 1 }, Except.error e)) := by
  intro rid e ts url startupItems T lim s
  refine ⟨rfl, fun h => ?_, fun h => ?_⟩
  · simp [markerAppendStartup, h]
  · simp [requestHandlerFallible, h]

/-- C2 counterexample: at re-validation time the code selects the *first
listed* marker, not the lowest-timestamp one — on a listing whose first
marker has the later timestamp, the authoritative marker under the claimed
rule belongs to run-A, yet the worker of run-B (not authoritative under
that rule) invokes the rental charge. -/
theorem later_timestamp_first_listed_charges :
    authoritativeMarkerBySpec twoMarkerListing
      = some (BookkeepingRecord.firstMonthRun "run-A" "2025-09-01T00:00:01.000Z") ∧
    (BookkeepingRecord.firstMonthRun "run-A" "2025-09-01T00:00:01.000Z").runId
      ≠ "run-B" ∧
    rentalRechargeCalls "run-B" twoMarkerListing
      = [{ eventName := ChargeEvent.rental, count := 1 }] := by
  refine ⟨by decide, by decide, rfl⟩

/-- C2 amended: the authoritative marker at re-validation time is the first
`first-month-run` record in the re-listing's order (timestamps are never
consulted); a worker charges exactly when that first-listed marker carries
its run id, so a worker whose marker is not the first-listed one never
invokes the rental charge. -/
theorem rental_charge_iff_first_listed_marker :
    ∀ (rid : String) (items : List BookkeepingRecord),
      (rentalRechargeCalls rid items
          = [{ eventName := ChargeEvent.rental, count := 1 }] ↔
        ∃ m, items.find? (fun r => r.isFirstMonthRun) = some m ∧ m.runId = rid) ∧
      (∀ m, items.find? (fun r => r.isFirstMonthRun) = some m → m.runId ≠ rid →
        rentalRechargeCalls rid items = []) := by
  intro rid items
  constructor
  · constructor
    · intro hch
      by_cases h : isThisReallyFirstRun rid items = true
      · exact (isThisReallyFirstRun_iff rid items).mp h
      · simp [rentalRechargeCalls, h] at hch
    · intro hex
      simp [rentalRechargeCalls, (isThisReallyFirstRun_iff rid items).mpr hex]
  · intro m hm hne
    have h : ¬ isThisReallyFirstRun rid items = true := by
      intro hh
      obtain ⟨m', hm', hrid⟩ := (isThisReallyFirstRun_iff rid items).mp hh
      rw [hm] at hm'
      exact hne (Option.some.inj hm' ▸ hrid)
    simp [rentalRechargeCalls, h]

/-- C4: a worker whose re-listing after the settle delay shows at least one
marker and only markers carrying its own run id (its own append is visible,
no other worker's marker is) issues the rental charge exactly once: one
`charge` call with event `rental` and count `1`. -/
theorem sole_marker_charges_rental_once :
    ∀ (rid : String) (items : List BookkeepingRecord),
      wasAlreadyRunThisMonth items = true →
      items.all (fun r => !r.isFirstMonthRun || r.runId == rid) = true →
      rentalRechargeCalls rid items
        = [{ eventName := ChargeEvent.rental, count := 1 }] := by
  intro rid items hsome hall
  rw [wasAlreadyRunThisMonth, List.any_eq_true] at hsome
  obtain ⟨m, hmem, hfm⟩ := hsome
  have hfind : (items.find? (fun r => r.isFirstMonthRun)).isSome := by
    rw [List.find?_isSome]
    exact ⟨m, hmem, hfm⟩
  obtain ⟨m₀, hm₀⟩ := Option.isSome_iff_exists.mp hfind
  have h1 : m₀.isFirstMonthRun = true := List.find?_some hm₀
  have h2 : m₀ ∈ items := List.mem_of_find?_eq_some hm₀
  have h3 : m₀.runId = rid := by
    rw [List.all_eq_true] at hall
    have := hall m₀ h2
    rcases Bool.or_eq_true _ _ |>.mp this with hh | hh
    · rw [h1] at hh; exact absurd hh (by simp)
    · exact beq_iff_eq.mp hh
  simp [rentalRechargeCalls,
    (isThisReallyFirstRun_iff rid items).mpr ⟨m₀, hm₀, h3⟩]

/-- C4 witness: a worker that appended the sole marker of the period charges
rental exactly once. -/
theorem sole_marker_charges_rental_once_witness :
    rentalRechargeCalls "run-A"
        [BookkeepingRecord.firstMonthRun "run-A" "2025-09-01T00:00:01.000Z"]
      = [{ eventName := ChargeEvent.rental, count := 1 }] :=
  sole_marker_charges_rental_once "run-A"
    [BookkeepingRecord.firstMonthRun "run-A" "2025-09-01T00:00:01.000Z"]
    (by decide) (by decide)

set_option maxRecDepth 40000 in
/-- C1: the divergence of the code from the claim, evaluated on the claim's
own scenario (threshold 100, one worker, 150 items, refresh ticks
interleaved): the code decides Free only while the *post-increment* counter
is strictly below the threshold, so item 99 is Free but item 100 — which the
claim (`K ≤ T`) and the source's own comment "First 100 results every month
are free" require to be Free — is decided Paid, giving 99 Free and 51 Paid
decisions instead of 100 and 50. -/
theorem hundredth_item_paid_at_threshold_100 :
    scenarioRun.2.length = 150 ∧
    scenarioRun.2[98]? = some Decision.free ∧
    scenarioRun.2[99]? = some Decision.paid ∧
    scenarioRun.2.count Decision.free = 99 ∧
    scenarioRun.2.count Decision.paid = 51 ∧
    scenarioRun.1.ledger.length = 99 := by
  decide

/-- A worker that charges found a first `first-month-run` record in its
re-listing carrying its own run id. -/
theorem charges_first_marker (w : WorkerView) (h : w.chargesRental = true) :
    ∃ m, w.relistView.find? (fun r => r.isFirstMonthRun) = some m ∧
      m.runId = w.runId := by
  rw [WorkerView.chargesRental, Bool.and_eq_true] at h
  exact (isThisReallyFirstRun_iff w.runId w.relistView).mp h.2

/-- C3 counterexample: two workers started concurrently on an empty period
partition, each of whose settle-delay re-listing shows only its own marker
(the peer's append not yet visible — an interleaving the store's guarantees
allow), *both* invoke the rental charge: the charge count for the period is
2, not at most 1. -/
theorem visibility_race_double_charge :
    validExecution [raceWorkerA, raceWorkerB] = true ∧
    raceWorkerA.runId ≠ raceWorkerB.runId ∧
    raceWorkerA.chargesRental = true ∧
    raceWorkerB.chargesRental = true ∧
    ([raceWorkerA, raceWorkerB].filter (fun w => w.chargesRental)).length = 2 := by
  decide

/-- C3 amended: at most one worker charges *provided* every worker's
re-listing agrees on the first-listed marker — as with a store that hands
every reader one consistent, settled listing order. Per-reader visibility
delays can break the agreement and with it the at-most-once guarantee. -/
theorem consistent_views_at_most_one_rental_charge :
    ∀ ws : List WorkerView,
      distinctRunIds ws = true →
      agreeOnFirstMarker ws = true →
      (ws.filter (fun w => w.chargesRental)).length ≤ 1 := by
  intro ws
  induction ws with
  | nil => intro _ _; simp
  | cons w rest ih =>
      intro hd ha
      rw [distinctRunIds, Bool.and_eq_true] at hd
      obtain ⟨hd1, hd2⟩ := hd
      rw [List.all_eq_true] at hd1
      simp only [agreeOnFirstMarker, List.all_eq_true, beq_iff_eq] at ha
      have ha' : agreeOnFirstMarker rest = true := by
        simp only [agreeOnFirstMarker, List.all_eq_true, beq_iff_eq]
        intro x hx y hy
        exact ha x (List.mem_cons_of_mem _ hx) y (List.mem_cons_of_mem _ hy)
      by_cases hw : w.chargesRental = true
      · have hnil : rest.filter (fun v => v.chargesRental) = [] := by
          rw [List.filter_eq_nil_iff]
          intro v hv hvc
          obtain ⟨m, hm, hmid⟩ := charges_first_marker w hw
          obtain ⟨m', hm', hmid'⟩ := charges_first_marker v hvc
          have heq := ha w (List.mem_cons_self _ _) v (List.mem_cons_of_mem _ hv)
          rw [hm, hm'] at heq
          have hmm : m = m' := Option.some.inj heq
          have hvw : v.runId = w.runId := by rw [← hmid', ← hmm, hmid]
          have hne := hd1 v hv
          rw [bne_iff_ne] at hne
          exact hne hvw
        rw [List.filter_cons_of_pos hw, hnil]
        simp
      · rw [List.filter_cons_of_neg (by simpa using hw)]
        exact ih hd2 ha'

/-- C3 witness: two concurrently started workers whose re-listings both show
the same settled two-marker listing charge at most once. -/
theorem consistent_views_at_most_one_rental_charge_witness :
    (([{ runId := "run-A", markerTimestamp := "2025-09-01T00:00:01.000Z",
         startupView := [],
         relistView := twoMarkerListing },
       { runId := "run-B", markerTimestamp := "2025-09-01T00:00:07.000Z",
         startupView := [],
         relistView := twoMarkerListing }] : List WorkerView).filter
      (fun w => w.chargesRental)).length ≤ 1 :=
  consistent_views_at_most_one_rental_charge _ (by decide) (by decide)

/-- A run started after the stop signal was observed decides nothing: no
further `requestHandler` call is issued once `stopped` holds. -/
theorem runWorker_stopped (T : Int) (rid : String) (lim : Nat → Bool) :
    ∀ (events : List WorkerEvent) (s : RunState), s.stopped = true →
      (runWorker T rid lim events s).2 = [] := by
  intro events
  induction events with
  | nil => intro s _; rfl
  | cons e rest ih =>
      intro s h
      cases e with
      | refreshTick => exact ih (refreshTickUpdate s.ledger s) h
      | item url ts => simp [runWorker, h]

/-- C8: when the external charge call of a Paid decision reports
`eventChargeLimitReached`, the handler requests `crawler.teardown()` (the
terminal stop signal) and marks the run stopped; the triggering decision
itself completes (it is delivered as Paid), and no further decision is
issued for any later event, whatever those events are. -/
theorem limit_reached_stops_production :
    ∀ (T : Int) (rid ts url : String) (lim : Nat → Bool) (s : RunState)
      (post : List WorkerEvent),
      s.stopped = false →
      ¬ (s.counter + 1 < T) →
      lim (s.paidCharges + 1) = true →
      (requestHandler T rid ts url lim s).1.stopped = true ∧
      (requestHandler T rid ts url lim s).2.2.contains Effect.teardown = true ∧
      (runWorker T rid lim (WorkerEvent.item url ts :: post) s).2
        = [Decision.paid] := by
  intro T rid ts url lim s post hs hT hl
  have hst : (requestHandler T rid ts url lim s).1.stopped = true := by
    simp [requestHandler, hT, hl, hs]
  refine ⟨hst, ?_, ?_⟩
  · simp [requestHandler, hT, hl]
  · have hpaid : (requestHandler T rid ts url lim s).2.1 = Decision.paid := by
      simp [requestHandler, hT]
    have hnil := runWorker_stopped T rid lim post
      (requestHandler T rid ts url lim s).1 hst
    simp [runWorker, hs, hpaid, hnil]

/-- C8 witness: with threshold 0 every item is Paid; a charging service that
reports the cap on the first charge stops the run after one decision, with
two more items and a refresh tick pending. -/
theorem limit_reached_stops_production_witness :
    (requestHandler 0 "run-A" "t0" "u0" (fun _ => true) initialState).1.stopped
      = true ∧
    (requestHandler 0 "run-A" "t0" "u0" (fun _ => true)
        initialState).2.2.contains Effect.teardown = true ∧
    (runWorker 0 "run-A" (fun _ => true)
        (WorkerEvent.item "u0" "t0" ::
          [WorkerEvent.item "u1" "t1", WorkerEvent.refreshTick])
        initialState).2 = [Decision.paid] :=
  limit_reached_stops_production 0 "run-A" "t0" "u0" (fun _ => true) initialState
    [WorkerEvent.item "u1" "t1", WorkerEvent.refreshTick] rfl (by decide) rfl

/-- C10: every handled item is pushed to the output dataset exactly once and
before the free-vs-paid decision takes effect — the first effect of every
handler invocation is the `pushData` of the item, it occurs exactly once,
and this holds whether the decision is Free, Paid, or Paid with the billing
cap reported on that very item. -/
theorem item_pushed_once_before_decision :
    ∀ (T : Int) (rid ts url : String) (lim : Nat → Bool) (s : RunState),
      (requestHandler T rid ts url lim s).2.2.head?
        = some (Effect.pushOutput url) ∧
      (requestHandler T rid ts url lim s).2.2.count (Effect.pushOutput url)
        = 1 := by
  intro T rid ts url lim s
  by_cases h : s.counter + 1 < T
  · constructor <;> simp [requestHandler, h, List.count_cons]
  · by_cases hr : lim (s.paidCharges + 1)
      <;> constructor <;> simp [requestHandler, h, hr, List.count_cons]

/-! ## The general single-worker decision law

The scenario evaluation above is an instance of a general law: on every
single-worker trace — any interleaving of items and refresh ticks, with the
billing cap never reported — the Kth item is decided Free exactly when
K ≤ T - 1, i.e. strictly fewer than T items are granted Free. -/

/-- Number of item events of a trace. -/
def itemCount : List WorkerEvent → Nat
  | [] => 0
  | WorkerEvent.item _ _ :: rest => itemCount rest + 1
  | WorkerEvent.refreshTick :: rest => itemCount rest

/-- The number of items a single worker decides Free in a period: the
post-increment counter must stay strictly below the threshold, so this is
T - 1 (clamped at zero), not T. -/
def freeQuota (T : Int) : Nat := (T - 1).toNat

/-- The spec-style usage sum distributes over list append. -/
theorem usageCountSumSpec_append (l1 l2 : List BookkeepingRecord) :
    usageCountSumSpec (l1 ++ l2) = usageCountSumSpec l1 + usageCountSumSpec l2 := by
  induction l1 with
  | nil => simp [usageCountSumSpec]
  | cons r rest ih =>
      cases r with
      | firstMonthRun rid ts => simp [usageCountSumSpec, ih]
      | itemsPushed c rid ts =>
          simp [usageCountSumSpec, ih]
          ring

/-- Appending one `items-pushed, count: 1` record raises the implementation
sum by one. -/
theorem sumBookkeeping_append_one (l : List BookkeepingRecord) (rid ts : String) :
    sumBookkeepingPushedResultsCount (l ++ [BookkeepingRecord.itemsPushed 1 rid ts])
      = sumBookkeepingPushedResultsCount l + 1 := by
  rw [sumBookkeeping_eq_spec, sumBookkeeping_eq_spec, usageCountSumSpec_append]
  simp [usageCountSumSpec]

/-- Invariant step law for a single worker: started in a state whose ledger
sum is `min n (freeQuota T)` (with `n` items already processed) and whose
cached counter lies between that sum and `n`, the decisions over the
remaining trace are Free exactly for the items whose overall index stays
within `freeQuota T`, regardless of where refresh ticks fall. -/
theorem runWorker_decisions_from (T : Int) (rid : String) :
    ∀ (events : List WorkerEvent) (n : Nat) (s : RunState),
      s.stopped = false →
      sumBookkeepingPushedResultsCount s.ledger = ((min n (freeQuota T) : Nat) : Int) →
      ((min n (freeQuota T) : Nat) : Int) ≤ s.counter →
      s.counter ≤ (n : Int) →
      (runWorker T rid (fun _ => false) events s).2
        = (List.range (itemCount events)).map
            (fun i => if n + i + 1 ≤ freeQuota T then Decision.free
                      else Decision.paid) := by
  intro events
  induction events with
  | nil =>
      intro n s _ _ _ _
      simp [runWorker, itemCount]
  | cons e rest ih =>
      intro n s hstop hsum hlo hhi
      cases e with
      | refreshTick =>
          have h1 : sumBookkeepingPushedResultsCount
                (refreshTickUpdate s.ledger s).ledger
              = ((min n (freeQuota T) : Nat) : Int) := by
            simpa [refreshTickUpdate] using hsum
          have h2 : ((min n (freeQuota T) : Nat) : Int)
              ≤ (refreshTickUpdate s.ledger s).counter := by
            simp [refreshTickUpdate, hsum]
          have h3 : (refreshTickUpdate s.ledger s).counter ≤ (n : Int) := by
            have hmn : min n (freeQuota T) ≤ n := Nat.min_le_left _ _
            simp only [refreshTickUpdate, hsum]
            exact_mod_cast hmn
          have hres := ih n (refreshTickUpdate s.ledger s) hstop h1 h2 h3
          simpa [runWorker, itemCount] using hres
      | item url ts =>
          by_cases hfree : n + 1 ≤ freeQuota T
          · have hmin : min n (freeQuota T) = n := Nat.min_eq_left (by omega)
            rw [hmin] at hsum hlo
            have hcnt : s.counter = (n : Int) := le_antisymm hhi hlo
            have hlt : s.counter + 1 < T := by
              unfold freeQuota at hfree
              omega
            have hstep :
                runWorker T rid (fun _ => false)
                    (WorkerEvent.item url ts :: rest) s
                  = (let out := requestHandler T rid ts url (fun _ => false) s
                     let tail := runWorker T rid (fun _ => false) rest out.1
                     (tail.1, out.2.1 :: tail.2)) := by
              simp [runWorker, hstop]
            set record := BookkeepingRecord.itemsPushed 1 rid ts with hrec
            have hhandler :
                requestHandler T rid ts url (fun _ => false) s
                  = ({ s with
                        counter := s.counter + 1
                        ledger := s.ledger ++ [record] },
                     Decision.free,
                     [Effect.pushOutput url, Effect.appendUsage record]) := by
              simp [requestHandler, hlt]
            have hs1 : sumBookkeepingPushedResultsCount (s.ledger ++ [record])
                = ((min (n + 1) (freeQuota T) : Nat) : Int) := by
              rw [hrec, sumBookkeeping_append_one, hsum,
                Nat.min_eq_left (by omega : n + 1 ≤ freeQuota T)]
              push_cast
              ring
            have htail := ih (n + 1)
              { s with
                counter := s.counter + 1
                ledger := s.ledger ++ [record] }
              hstop hs1
              (by simp [Nat.min_eq_left (by omega : n + 1 ≤ freeQuota T), hcnt])
              (by simp [hcnt])
            rw [hstep]
            simp only [hhandler]
            rw [htail, itemCount, List.range_succ_eq_map, List.map_cons,
              List.map_map]
            have hzero : n + 0 + 1 ≤ freeQuota T := by omega
            rw [if_pos hzero]
            refine congrArg₂ _ rfl ?_
            refine List.map_congr_left (fun i _ => ?_)
            have harith : n + 1 + i + 1 = n + (i + 1) + 1 := by ring
            simp [Function.comp, harith]
          · have hqn : freeQuota T ≤ n := by omega
            have hmin : min n (freeQuota T) = freeQuota T := Nat.min_eq_right hqn
            rw [hmin] at hsum hlo
            have hge : ¬ (s.counter + 1 < T) := by
              unfold freeQuota at hlo
              omega
            have hstep :
                runWorker T rid (fun _ => false)
                    (WorkerEvent.item url ts :: rest) s
                  = (let out := requestHandler T rid ts url (fun _ => false) s
                     let tail := runWorker T rid (fun _ => false) rest out.1
                     (tail.1, out.2.1 :: tail.2)) := by
              simp [runWorker, hstop]
            have hhandler :
                requestHandler T rid ts url (fun _ => false) s
                  = ({ s with
                        counter := s.counter + 1
                        paidCharges := s.paidCharges + 1
                        stopped := s.stopped || false },
                     Decision.paid,
                     [Effect.pushOutput url,
                      Effect.charge ChargeEvent.result 1 false]) := by
              simp [requestHandler, hge]
            have hmin1 : min (n + 1) (freeQuota T) = freeQuota T :=
              Nat.min_eq_right (by omega)
            have htail := ih (n + 1)
              { s with
                counter := s.counter + 1
                paidCharges := s.paidCharges + 1
                stopped := s.stopped || false }
              (by simp [hstop]) (by simpa [hmin1] using hsum)
              (by simp only [hmin1]; omega) (by push_cast; omega)
            rw [hstep]
            simp only [hhandler]
            rw [htail, itemCount, List.range_succ_eq_map, List.map_cons,
              List.map_map]
            have hzero : ¬ (n + 0 + 1 ≤ freeQuota T) := by omega
            rw [if_neg hzero]
            refine congrArg₂ _ rfl ?_
            refine List.map_congr_left (fun i _ => ?_)
            have harith : n + 1 + i + 1 = n + (i + 1) + 1 := by ring
            simp [Function.comp, harith]

/-- On every single-worker trace started on an empty period partition —
items and refresh ticks interleaved arbitrarily, the billing cap never
reported — the Kth item (K = i + 1) is decided Free exactly when
K ≤ freeQuota T = T - 1, i.e. when K < T: the code grants one fewer Free
item than a `K ≤ T` reading of the threshold would. -/
theorem runWorker_kth_free_iff_below_threshold (T : Int) (rid : String)
    (events : List WorkerEvent) :
    (runWorker T rid (fun _ => false) events initialState).2
      = (List.range (itemCount events)).map
          (fun i => if i + 1 ≤ freeQuota T then Decision.free
                    else Decision.paid) := by
  have h := runWorker_decisions_from T rid events 0 initialState rfl
    (by simp [initialState, sumBookkeepingPushedResultsCount])
    (by simp [initialState]) (by simp [initialState])
  simpa using h

end RentalPPE
